import Mathlib

/-!
Formal model of the batch ETL pipeline in `src/main.py`.

The pipeline cleans a batch of transaction records (`clean_data`), derives
enrichment attributes (`enrich_data` with the inner `categorize_amount`),
and writes the result into a relational store inside one transaction
(`save_to_database`).  Dataframes are modelled as a list of column names
plus positionally aligned rows of cells; a cell is a missing value, a
rational number, or a string.  The relational store is modelled as lists
of rows per table, with the transactional behaviour of the writer made
explicit (writes become durable only at commit, a rollback discards them).
-/

/-- A pandas cell value: a missing value (NaN/None), a numeric value
(floats are modelled as rationals), or a string. -/
inductive Value where
  | nan : Value
  | num : ℚ → Value
  | str : String → Value
deriving DecidableEq, Repr

/-- A dataframe: column names plus rows of cells, each row positionally
aligned with `cols`. -/
structure DF where
  cols : List String
  rows : List (List Value)
deriving DecidableEq, Repr

/-- Index of the first occurrence of `a` in a list (used both for locating
a dataframe column by name and for resolving a lookup row's id by natural
key). -/
def idxOf? {α : Type} [DecidableEq α] (a : α) : List α → Option Nat
  | [] => none
  | b :: l => if b = a then some 0 else (idxOf? a l).map (· + 1)

/-- The cell of `row` in column `c`, given the column layout `cols`.
A column that is absent (or a row too short to reach it) reads as missing. -/
def getCell (cols : List String) (c : String) (row : List Value) : Value :=
  match idxOf? c cols with
  | some i => row.getD i Value.nan
  | none => Value.nan

/-- Rewrite column `c` cell-wise (`df[c] = df[c].map f` style assignment);
a dataframe without the column is returned unchanged. -/
def mapColVals (df : DF) (c : String) (f : Value → Value) : DF :=
  match idxOf? c df.cols with
  | some i => { df with rows := df.rows.map (fun r => r.set i (f (r.getD i Value.nan))) }
  | none => df

/-- Column assignment `df[c] = f(row)`: overwrite the column if it exists,
otherwise append it on the right (pandas assignment semantics). -/
def setCol (df : DF) (c : String) (f : List Value → Value) : DF :=
  match idxOf? c df.cols with
  | some i => { df with rows := df.rows.map (fun r => r.set i (f r)) }
  | none => { cols := df.cols ++ [c], rows := df.rows.map (fun r => r ++ [f r]) }

/-- `df.dropna(subset=subset)`: keep the rows that have a non-missing value
in every column of `subset`. -/
def dropnaSubset (df : DF) (subset : List String) : DF :=
  { df with rows := df.rows.filter (fun r => subset.all (fun c => decide (getCell df.cols c r ≠ Value.nan))) }

/-- Keep-first deduplication worker: drop any element already emitted
(`seen` accumulates the emitted elements). -/
def dedupKeepFirst {α : Type} [DecidableEq α] (seen : List α) : List α → List α
  | [] => []
  | a :: l => if a ∈ seen then dedupKeepFirst seen l else a :: dedupKeepFirst (a :: seen) l

/-- `drop_duplicates` / `unique`: keep the first occurrence of each element. -/
def dropDuplicatesList {α : Type} [DecidableEq α] (l : List α) : List α :=
  dedupKeepFirst [] l

/-- Is the character an ASCII digit? -/
def isDigitCh (c : Char) : Bool :=
  48 ≤ c.toNat ∧ c.toNat ≤ 57

/-- Is the character ASCII whitespace? -/
def isSpaceCh (c : Char) : Bool :=
  c = ' ' ∨ c = '\t' ∨ c = '\n' ∨ c = '\r'

/-- Strip leading and trailing whitespace. -/
def trimChars (l : List Char) : List Char :=
  ((l.dropWhile isSpaceCh).reverse.dropWhile isSpaceCh).reverse

/-- Split a character list on a separator character. -/
def splitCh (sep : Char) : List Char → List (List Char)
  | [] => [[]]
  | c :: cs =>
    if c = sep then [] :: splitCh sep cs
    else
      match splitCh sep cs with
      | [] => [[c]]
      | g :: gs => (c :: g) :: gs

/-- Read a non-empty all-digit character list as a natural number. -/
def charsToNat? (l : List Char) : Option Nat :=
  if l ≠ [] ∧ l.all isDigitCh then
    some (l.foldl (fun acc c => acc * 10 + (c.toNat - 48)) 0)
  else none

/-- The rational `±(whole·10^k + frac) / 10^k`, the value of a decimal
literal with `k` fractional digits. -/
def decimalVal (neg : Bool) (whole frac k : Nat) : ℚ :=
  if neg then mkRat (-((whole * 10 ^ k + frac : Nat) : Int)) (10 ^ k)
  else mkRat ((whole * 10 ^ k + frac : Nat) : Int) (10 ^ k)

/-- Parse a decimal literal (optional sign, digits, optional fractional
part) into a rational.  This models the numeric grammar shared by Python's
`float()` and `pandas.to_numeric` for the values this pipeline sees;
scientific notation and special spellings such as `"inf"` are out of the
modelled fragment and count as unparseable. -/
def parseDecimal (s : String) : Option ℚ :=
  let t := trimChars s.toList
  let neg := t.take 1 = ['-']
  let body := if t.take 1 = ['-'] ∨ t.take 1 = ['+'] then t.drop 1 else t
  match splitCh '.' body with
  | [ip] =>
    match charsToNat? ip with
    | some n => some (decimalVal neg n 0 0)
    | none => none
  | [ip, fp] =>
    if ip = [] ∧ fp = [] then none
    else
      match (if ip = [] then some 0 else charsToNat? ip),
          (if fp = [] then some 0 else charsToNat? fp) with
      | some n, some f => some (decimalVal neg n f fp.length)
      | _, _ => none
  | _ => none

/-- `pd.to_numeric(v, errors='coerce')` on one cell: numbers pass through,
a parseable string becomes its number, anything else becomes missing. -/
def to_numeric (v : Value) : Value :=
  match v with
  | Value.num q => Value.num q
  | Value.nan => Value.nan
  | Value.str s =>
    match parseDecimal s with
    | some q => Value.num q
    | none => Value.nan

/-- A calendar date as parsed out of a `transaction_date` cell. -/
structure Date where
  year : Nat
  month : Nat
  day : Nat
deriving DecidableEq, Repr

/-- Parse a dashed `year-month-day` string (month and day need not be
zero-padded). -/
def parseDateStr (s : String) : Option Date :=
  match splitCh '-' s.toList with
  | [y, m, d] =>
    match charsToNat? y, charsToNat? m, charsToNat? d with
    | some yn, some mn, some dn =>
      if 1 ≤ mn ∧ mn ≤ 12 ∧ 1 ≤ dn ∧ dn ≤ 31 ∧ yn ≤ 9999 then some ⟨yn, mn, dn⟩ else none
    | _, _, _ => none
  | _ => none

/-- `pd.to_datetime` on one cell, restricted to dashed year-month-day
strings; every other value counts as a parse failure.  `clean_data` only
applies this after dropping rows with a missing `transaction_date`, so the
missing-value case never reaches it on the real code path. -/
def parseDate (v : Value) : Option Date :=
  match v with
  | Value.str s => parseDateStr s
  | _ => none

/-- The character of one decimal digit. -/
def digitCh (n : Nat) : Char :=
  match n with
  | 0 => '0' | 1 => '1' | 2 => '2' | 3 => '3' | 4 => '4'
  | 5 => '5' | 6 => '6' | 7 => '7' | 8 => '8' | _ => '9'

/-- Render a number as exactly two digits (`strftime` `%m` / `%d`). -/
def pad2 (n : Nat) : List Char :=
  [digitCh (n / 10 % 10), digitCh (n % 10)]

/-- Render a number as exactly four digits (`strftime` `%Y`). -/
def pad4 (n : Nat) : List Char :=
  [digitCh (n / 1000 % 10), digitCh (n / 100 % 10), digitCh (n / 10 % 10), digitCh (n % 10)]

/-- `strftime('%Y-%m-%d')`. -/
def formatDate (d : Date) : String :=
  String.mk (pad4 d.year ++ '-' :: pad2 d.month ++ '-' :: pad2 d.day)

/-- Normalize one date cell: re-render a parseable date in `YYYY-MM-DD`
form, leave an unparseable cell untouched. -/
def normDate (v : Value) : Value :=
  match parseDate v with
  | some d => Value.str (formatDate d)
  | none => v

/-- Does every `transaction_date` cell of the dataframe parse?  This is the
condition under which the batch-level `pd.to_datetime` call succeeds
instead of raising. -/
def allDatesParse (df : DF) : Bool :=
  df.rows.all (fun r => (parseDate (getCell df.cols "transaction_date" r)).isSome)

/-- The date-standardization block of `clean_data` (lines 62-66 of the
source): converting the whole column succeeds only when every cell parses,
in which case each cell is re-rendered as `YYYY-MM-DD`; one bad cell makes
the conversion raise, the exception is caught, and the column is left
unchanged. -/
def standardizeDates (df : DF) : DF :=
  if allDatesParse df then mapColVals df "transaction_date" normDate else df

/-- `critical_columns`: the required columns that are actually present
(source line 54). -/
def criticalColumns (df : DF) : List String :=
  ["transaction_date"].filter (fun c => decide (c ∈ df.cols))

/-- Drop rows missing a critical value (source lines 57-58); skipped when
no critical column is present. -/
def dropMissingCritical (df : DF) : DF :=
  if (criticalColumns df).isEmpty then df else dropnaSubset df (criticalColumns df)

/-- The guarded date block of `clean_data` (source line 61). -/
def dateStage (df : DF) : DF :=
  if "transaction_date" ∈ df.cols then standardizeDates df else df

/-- `clean_df.drop_duplicates()` (source line 70). -/
def dedupStage (df : DF) : DF :=
  { df with rows := dropDuplicatesList df.rows }

/-- `clean_df['transaction_amount'] = pd.to_numeric(..., errors='coerce')`
(source line 75). -/
def coerceAmounts (df : DF) : DF :=
  mapColVals df "transaction_amount" to_numeric

/-- `clean_df = clean_df[clean_df['transaction_amount'] >= 0]` (source
line 77); a missing amount compares as false and is dropped. -/
def nonnegNum : Value → Bool
  | Value.num q => decide (0 ≤ q)
  | _ => false

/-- Keep the rows whose `transaction_amount` is a non-negative number. -/
def filterNonneg (df : DF) : DF :=
  { df with rows := df.rows.filter (fun r => nonnegNum (getCell df.cols "transaction_amount" r)) }

/-- The guarded amount block of `clean_data` (source lines 74-77). -/
def amountStage (df : DF) : DF :=
  if "transaction_amount" ∈ df.cols then filterNonneg (coerceAmounts df) else df

/-- `clean_data` (source lines 38-84): `None` or an empty batch yields
`None`; otherwise drop rows with missing critical fields, standardize
dates (batch-level, best effort), drop exact duplicates, then coerce
amounts and drop missing/negative ones. -/
def clean_data (odf : Option DF) : Option DF :=
  match odf with
  | none => none
  | some df =>
    if df.rows.isEmpty then none
    else some (amountStage (dedupStage (dateStage (dropMissingCritical df))))

/-- Python `float(x)` on a cell: `none` means the call raises
(`ValueError`/`TypeError`); `some none` is the NaN float; `some (some q)`
is an ordinary number. -/
def tryFloat : Value → Option (Option ℚ)
  | Value.num q => some (some q)
  | Value.nan => some none
  | Value.str s =>
    match parseDecimal s with
    | some q => some (some q)
    | none => none

/-- `<` on the float model: any comparison against NaN is false. -/
def floatLt : Option ℚ → ℚ → Bool
  | none, _ => false
  | some q, c => decide (q < c)

/-- `≤` on the float model: any comparison against NaN is false. -/
def floatLe : Option ℚ → ℚ → Bool
  | none, _ => false
  | some q, c => decide (q ≤ c)

/-- `categorize_amount` (source lines 97-107): convert to float (an
unconvertible value raises and yields `'unknown'`), then thresholds at 50
and 200.  Note that the NaN float converts without raising and fails both
comparisons, so a missing amount falls through to `'high'`. -/
def categorize_amount (v : Value) : String :=
  match tryFloat v with
  | none => "unknown"
  | some f =>
    if floatLt f 50 then "low"
    else if floatLe f 200 then "medium"
    else "high"

/-- Amount as a number with missing treated as `0` (pandas `sum` skips
NaN). -/
def numOr0 : Value → ℚ
  | Value.num q => q
  | _ => 0

/-- Rational addition spelled through `mkRat` (kept definitionally
computable; `addQ_eq` identifies it with `+`). -/
def addQ (a b : ℚ) : ℚ :=
  mkRat (a.num * b.den + b.num * a.den) (a.den * b.den)

/-- Sum of a list of rationals (`sumQ_eq` identifies it with `List.sum`). -/
def sumQ : List ℚ → ℚ
  | [] => 0
  | a :: l => addQ a (sumQ l)

/-- The per-customer batch total computed by the groupby of source lines
118-120: the sum of the (coerced) `transaction_amount` cells over the rows
whose `customer_id` cell equals `k`. -/
def customerTotal (df : DF) (k : Value) : ℚ :=
  sumQ ((df.rows.filter (fun r => decide (getCell df.cols "customer_id" r = k))).map
    (fun r => numOr0 (getCell df.cols "transaction_amount" r)))

/-- `enriched_df['amount_category'] = ...apply(categorize_amount)` (source
line 114), applied to the already-coerced amount column. -/
def addCategory (df : DF) : DF :=
  setCol df "amount_category" (fun r => Value.str (categorize_amount (getCell df.cols "transaction_amount" r)))

/-- The groupby/merge of source lines 118-120, modelled as attaching the
totals column directly: a row with a missing `customer_id` is dropped by
the groupby and gets no match in the left merge, hence a missing total. -/
def addTotals (df : DF) : DF :=
  setCol df "total_customer_transactions" (fun r =>
    match getCell df.cols "customer_id" r with
    | Value.nan => Value.nan
    | k => Value.num (customerTotal df k))

/-- `enrich_data` (source lines 86-123): `None`/empty propagates as
`None`; with a `transaction_amount` column the amounts are re-coerced, the
category column is added, and the per-customer totals are merged in
(`groupby('customer_id')` raises a `KeyError`, modelled as `Except.error`,
when that column is missing); without a `transaction_amount` column the
batch is returned as is. -/
def enrich_data (odf : Option DF) : Except Unit (Option DF) :=
  match odf with
  | none => Except.ok none
  | some df =>
    if df.rows.isEmpty then Except.ok none
    else if "transaction_amount" ∈ df.cols then
      if "customer_id" ∈ df.cols then
        Except.ok (some (addTotals (addCategory (coerceAmounts df))))
      else Except.error ()
    else Except.ok (some df)

/-- Digits of a number, most significant first (`fuel` bounds recursion). -/
def natToStrAux : Nat → Nat → List Char
  | 0, _ => []
  | fuel + 1, n => if n < 10 then [digitCh n] else natToStrAux fuel (n / 10) ++ [digitCh (n % 10)]

/-- Decimal rendering of a natural number. -/
def natStr (n : Nat) : String :=
  String.mk (natToStrAux (n + 1) n)

/-- Decimal rendering of an integer. -/
def intStr : Int → String
  | Int.ofNat n => natStr n
  | Int.negSucc n => "-" ++ natStr (n + 1)

/-- Decimal rendering of a rational. -/
def ratStr (q : ℚ) : String :=
  if q.den = 1 then intStr q.num else intStr q.num ++ "/" ++ natStr q.den

/-- Python `str(x)` on a cell.  The exact float spelling differs from
CPython (`str(30.0)` is `"30.0"`); no claim depends on the rendering, only
on it being a fixed function of the value, and in the writer it is only
ever applied to cells that are already strings. -/
def pyStr : Value → String
  | Value.nan => "nan"
  | Value.num q => ratStr q
  | Value.str s => s

/-- The six insert steps of `save_to_database`, in write order (source
lines 176-255). -/
inductive Step where
  | customers : Step
  | products : Step
  | txTypes : Step
  | spendCats : Step
  | amountCats : Step
  | facts : Step
deriving DecidableEq, Repr

/-- Observable events of one `save_to_database` call, in order. -/
inductive DBEvent where
  | openConn : DBEvent
  | write : Step → DBEvent
  | commit : DBEvent
  | rollback : DBEvent
  | closeConn : DBEvent
deriving DecidableEq, Repr

/-- A row of the `transactions` fact table: the directly stored columns
plus the three foreign keys resolved by the `SELECT ... WHERE name = %s`
subqueries (an id is the position of the matching lookup row; a missing
lookup row yields SQL `NULL`, modelled as `none`). -/
structure FactRow where
  customer_id : String
  product_id : String
  transaction_date : String
  transaction_amount : Value
  transaction_type_id : Option Nat
  spend_category_id : Option Nat
  amount_category_id : Option Nat
deriving DecidableEq, Repr

/-- The relational store: one list per table, in insertion order.  Lookup
tables are keyed by their natural key (the row position stands for the
serial id). -/
structure DB where
  customers : List String
  products : List (String × String)
  transaction_types : List String
  spend_categories : List String
  amount_categories : List (String × ℚ × ℚ)
  transactions : List FactRow
deriving DecidableEq, Repr

/-- A store with all six tables empty. -/
def emptyDB : DB :=
  ⟨[], [], [], [], [], []⟩

/-- Fault model for one `save_to_database` call: whether the connection
attempt raises, which insert steps raise, and whether the commit raises.
These stand for the database errors the source catches with
`except Exception`. -/
structure Failures where
  connectFail : Bool
  stepFail : Step → Bool
  commitFail : Bool

/-- A call on which every database operation succeeds. -/
def noFailures : Failures :=
  ⟨false, fun _ => false, false⟩

/-- The eight columns retyped by the `astype` call (source lines 160-169);
all but `transaction_amount` are converted to `str`. -/
def strColsList : List String :=
  ["customer_id", "product_id", "product_category", "transaction_date",
   "transaction_type", "spend_category", "amount_category"]

/-- Can the cell be converted to `float` by `astype` without raising? -/
def floatable : Value → Bool
  | Value.num _ => true
  | Value.nan => true
  | Value.str s => (parseDecimal s).isSome

/-- Does the `astype` call of source lines 160-169 succeed?  It raises
(before any connection is opened) when one of the eight columns is absent
or a `transaction_amount` cell cannot be converted to `float`. -/
def astypeOk (df : DF) : Bool :=
  (strColsList ++ ["transaction_amount"]).all (fun c => decide (c ∈ df.cols)) &&
    df.rows.all (fun r => floatable (getCell df.cols "transaction_amount" r))

/-- `float` conversion of one cell (defined on the convertible cells
`astypeOk` lets through; an unparseable string coerces to missing only in
the unreachable fallback). -/
def toFloatVal : Value → Value
  | Value.num q => Value.num q
  | Value.nan => Value.nan
  | Value.str s =>
    match parseDecimal s with
    | some q => Value.num q
    | none => Value.nan

/-- The value conversion performed by `astype`: the seven string columns
become strings, `transaction_amount` becomes a float. -/
def astypeApply (df : DF) : DF :=
  mapColVals (strColsList.foldl (fun d c => mapColVals d c (fun v => Value.str (pyStr v))) df)
    "transaction_amount" toFloatVal

/-- The cells of one column, top to bottom. -/
def colValues (df : DF) (c : String) : List Value :=
  match idxOf? c df.cols with
  | some i => df.rows.map (fun r => r.getD i Value.nan)
  | none => []

/-- `INSERT ... ON CONFLICT (key) DO NOTHING` into a single-column lookup
table. -/
def insertIfAbsent (l : List String) (k : String) : List String :=
  if k ∈ l then l else l ++ [k]

/-- `INSERT ... ON CONFLICT (product_id) DO NOTHING` into `products`: the
conflict key is `product_id` alone, so a second category for a known id is
ignored. -/
def insertProduct (l : List (String × String)) (p : String × String) : List (String × String) :=
  if p.1 ∈ l.map Prod.fst then l else l ++ [p]

/-- `INSERT ... ON CONFLICT (category_name) DO NOTHING` into
`amount_categories`. -/
def insertAmountCat (l : List (String × ℚ × ℚ)) (row : String × ℚ × ℚ) : List (String × ℚ × ℚ) :=
  if row.1 ∈ l.map (fun x => x.1) then l else l ++ [row]

/-- The three fixed amount-category band rows of source lines 218-222
(`999999.99` written as an exact rational). -/
def amountCategoryRows : List (String × ℚ × ℚ) :=
  [("low", 0, 50), ("medium", 50, 200), ("high", 200, mkRat 99999999 100)]

/-- Build one `transactions` row from a dataframe row, resolving the three
name-keyed foreign keys against the current lookup tables (the inline
`SELECT` subqueries of source lines 232-240). -/
def mkFact (db : DB) (cols : List String) (r : List Value) : FactRow :=
  { customer_id := pyStr (getCell cols "customer_id" r)
    product_id := pyStr (getCell cols "product_id" r)
    transaction_date := pyStr (getCell cols "transaction_date" r)
    transaction_amount := getCell cols "transaction_amount" r
    transaction_type_id := idxOf? (pyStr (getCell cols "transaction_type" r)) db.transaction_types
    spend_category_id := idxOf? (pyStr (getCell cols "spend_category" r)) db.spend_categories
    amount_category_id :=
      idxOf? (pyStr (getCell cols "amount_category" r)) (db.amount_categories.map (fun x => x.1)) }

/-- One insert step of the writer, applied to the in-transaction state
(source lines 176-255).  Dimension steps deduplicate their inputs
(`unique()` / `drop_duplicates()`, order of first occurrence) and insert
with conflict-ignore; the fact step appends one row per record. -/
def applyStep (db : DB) (df : DF) : Step → DB
  | Step.customers =>
    let ks := (dropDuplicatesList (colValues df "customer_id")).map pyStr
    { db with customers := ks.foldl insertIfAbsent db.customers }
  | Step.products =>
    let ps := (dropDuplicatesList
        (List.zip (colValues df "product_id") (colValues df "product_category"))).map
      (fun p => (pyStr p.1, pyStr p.2))
    { db with products := ps.foldl insertProduct db.products }
  | Step.txTypes =>
    let ks := (dropDuplicatesList (colValues df "transaction_type")).map pyStr
    { db with transaction_types := ks.foldl insertIfAbsent db.transaction_types }
  | Step.spendCats =>
    let ks := (dropDuplicatesList (colValues df "spend_category")).map pyStr
    { db with spend_categories := ks.foldl insertIfAbsent db.spend_categories }
  | Step.amountCats =>
    { db with amount_categories := amountCategoryRows.foldl insertAmountCat db.amount_categories }
  | Step.facts =>
    { db with transactions := db.transactions ++ df.rows.map (fun r => mkFact db df.cols r) }

/-- The write order of the six steps (lookup tables before facts). -/
def stepOrder : List Step :=
  [Step.customers, Step.products, Step.txTypes, Step.spendCats, Step.amountCats, Step.facts]

/-- Run the insert steps in order against the in-transaction state.
Returns the final in-transaction state, the write events that happened,
and whether every step succeeded (a failing step raises, ending the
sequence). -/
def runSteps (pending : DB) (df : DF) (fl : Step → Bool) : List Step → DB × List DBEvent × Bool
  | [] => (pending, [], true)
  | s :: rest =>
    if fl s then (pending, [], false)
    else
      let t := runSteps (applyStep pending df s) df fl rest
      (t.1, DBEvent.write s :: t.2.1, t.2.2)

/-- Outcome of one `save_to_database` call: the durable (committed) store
state and the ordered event trace. -/
structure SaveResult where
  db : DB
  trace : List DBEvent
deriving DecidableEq, Repr

/-- `save_to_database` (source lines 156-280).  The `astype` conversion
runs first and can raise before any connection exists (no rollback, no
close).  Once the connection is open, all writes target the transaction;
they become durable only if every step and the commit succeed, in which
case the commit happens once, right after the fact inserts.  Any failure
after the connection is open triggers `conn.rollback()`, discarding the
batch.  The `finally` block closes the connection whenever one was
acquired. -/
def save_to_database (store : DB) (df : DF) (fl : Failures) : SaveResult :=
  if astypeOk df = false then { db := store, trace := [] }
  else if fl.connectFail = true then { db := store, trace := [] }
  else
    let t := runSteps store (astypeApply df) fl.stepFail stepOrder
    if t.2.2 && !fl.commitFail then
      { db := t.1, trace := DBEvent.openConn :: t.2.1 ++ [DBEvent.commit, DBEvent.closeConn] }
    else
      { db := store, trace := DBEvent.openConn :: t.2.1 ++ [DBEvent.rollback, DBEvent.closeConn] }

/-- All six steps applied in write order (the committed state of a fully
successful call). -/
def applyAllSteps (db : DB) (df : DF) : DB :=
  stepOrder.foldl (fun d s => applyStep d df s) db

/-- Outcome of one pipeline run. -/
structure RunResult where
  cleaned : Option DF
  enriched : Option DF
  saveAttempted : Bool
  db : DB
deriving DecidableEq, Repr

/-- The orchestration of `main` (source lines 283-308) after its initial
connection check, with the fetch result, the store state and the fault
model passed explicitly: each stage runs only when its predecessor
produced data, and the save only runs on an enriched batch.  An uncaught
`KeyError` from the enricher propagates as `Except.error`. -/
def runPipeline (raw : Option DF) (db0 : DB) (fl : Failures) : Except Unit RunResult :=
  match raw with
  | none => Except.ok ⟨none, none, false, db0⟩
  | some df =>
    match clean_data (some df) with
    | none => Except.ok ⟨none, none, false, db0⟩
    | some cdf =>
      match enrich_data (some cdf) with
      | Except.error e => Except.error e
      | Except.ok none => Except.ok ⟨some cdf, none, false, db0⟩
      | Except.ok (some edf) =>
        Except.ok ⟨some cdf, some edf, true, (save_to_database db0 edf fl).db⟩

/-- An object heap of dataframes, for making the Python-level mutation
structure of `clean_data` / `enrich_data` explicit: a reference is an
index, `df.copy()` allocates, the `inplace=True` calls and column
assignments mutate the addressed object. -/
abbrev Heap : Type :=
  List DF

/-- Dereference (out-of-range reads a dummy empty frame). -/
def heapGet (h : Heap) (r : Nat) : DF :=
  h.getD r ⟨[], []⟩

/-- Overwrite the object at a reference. -/
def heapSet (h : Heap) (r : Nat) (df : DF) : Heap :=
  h.set r df

/-- `clean_data` with its object mutations explicit: the input object `r`
is never written; `clean_df = df.copy()` allocates a fresh object, the
dropna / date-conversion / drop-duplicates calls mutate that copy in
place, and the final boolean-mask filtering rebinds `clean_df` to yet
another fresh object. -/
def clean_data_heap (h : Heap) (r : Nat) : Heap × Option Nat :=
  let df := heapGet h r
  if df.rows.isEmpty then (h, none)
  else
    let c := h.length
    let h1 := h ++ [df]
    let h2 := heapSet h1 c (dropMissingCritical (heapGet h1 c))
    let h3 := heapSet h2 c (dateStage (heapGet h2 c))
    let h4 := heapSet h3 c (dedupStage (heapGet h3 c))
    if "transaction_amount" ∈ (heapGet h4 c).cols then
      let h5 := heapSet h4 c (coerceAmounts (heapGet h4 c))
      (h5 ++ [filterNonneg (heapGet h5 c)], some h5.length)
    else (h4, some c)

/-- `enrich_data` with its object mutations explicit: the input object `r`
is never written; `enriched_df = df.copy()` allocates, the amount coercion
and category assignment mutate the copy, and the merge rebinds
`enriched_df` to a fresh object. -/
def enrich_data_heap (h : Heap) (r : Nat) : Heap × Except Unit (Option Nat) :=
  let df := heapGet h r
  if df.rows.isEmpty then (h, Except.ok none)
  else
    let c := h.length
    let h1 := h ++ [df]
    if "transaction_amount" ∈ (heapGet h1 c).cols then
      if "customer_id" ∈ (heapGet h1 c).cols then
        let h2 := heapSet h1 c (coerceAmounts (heapGet h1 c))
        let h3 := heapSet h2 c (addCategory (heapGet h2 c))
        (h3 ++ [addTotals (heapGet h3 c)], Except.ok (some h3.length))
      else (h1, Except.error ())
    else (h1, Except.ok (some c))

/-- Is the cell a number or a missing value — the cells on which the
numeric coercion `pd.to_numeric` is the identity? -/
def isNumOrNan : Value → Bool
  | Value.str _ => false
  | _ => true

/-- Is the cell a number? -/
def isNumV : Value → Bool
  | Value.num _ => true
  | _ => false

/-- Decidable equality for `Except` results, so that concrete pipeline
outcomes can be checked by `decide`. -/
instance {ε α : Type} [DecidableEq ε] [DecidableEq α] : DecidableEq (Except ε α) := fun x y =>
  match x, y with
  | Except.error a, Except.error b => decidable_of_iff (a = b) (by simp)
  | Except.ok a, Except.ok b => decidable_of_iff (a = b) (by simp)
  | Except.error _, Except.ok _ => isFalse (fun h => Except.noConfusion h)
  | Except.ok _, Except.error _ => isFalse (fun h => Except.noConfusion h)

example : categorize_amount (Value.num 30) = "low" := by decide
example : categorize_amount (Value.num 50) = "medium" := by decide
example : categorize_amount (Value.num 200) = "medium" := by decide
example : categorize_amount (Value.num 220) = "high" := by decide
example : categorize_amount Value.nan = "high" := by decide
example : categorize_amount (Value.str "abc") = "unknown" := by decide
example : parseDecimal "30" = some 30 := by decide
example : parseDecimal "-2.5" = some (mkRat (-5) 2) := by decide
example : parseDateStr "2023-1-5" = some ⟨2023, 1, 5⟩ := by decide
example : formatDate ⟨2023, 1, 5⟩ = "2023-01-05" := by decide
example :
    clean_data (some ⟨["transaction_amount"], [[Value.str "30"], [Value.num 30]]⟩)
      = some ⟨["transaction_amount"], [[Value.num 30], [Value.num 30]]⟩ := by decide

/-! ### List and index infrastructure -/

theorem idxOf?_lt_length {α : Type} [DecidableEq α] {a : α} :
    ∀ {l : List α} {i : Nat}, idxOf? a l = some i → i < l.length := by
  intro l
  induction l with
  | nil => intro i h; simp [idxOf?] at h
  | cons b t ih =>
    intro i h
    by_cases hb : b = a
    · simp [idxOf?, hb] at h
      simp only [List.length_cons]
      omega
    · simp [idxOf?, hb] at h
      obtain ⟨j, hj, rfl⟩ := h
      have := ih hj
      simp only [List.length_cons]
      omega

theorem idxOf?_getD {α : Type} [DecidableEq α] {a : α} :
    ∀ {l : List α} {i : Nat} (d : α), idxOf? a l = some i → l.getD i d = a := by
  intro l
  induction l with
  | nil => intro i d h; simp [idxOf?] at h
  | cons b t ih =>
    intro i d h
    by_cases hb : b = a
    · simp [idxOf?, hb] at h
      subst h
      simpa using hb
    · simp [idxOf?, hb] at h
      obtain ⟨j, hj, rfl⟩ := h
      simpa using ih d hj

theorem idxOf?_ne_of_ne {α : Type} [DecidableEq α] {a b : α} {l : List α} {i j : Nat}
    (hab : a ≠ b) (ha : idxOf? a l = some i) (hb : idxOf? b l = some j) : i ≠ j := by
  intro hij
  subst hij
  exact hab ((idxOf?_getD a ha).symm.trans (idxOf?_getD a hb))

theorem idxOf?_eq_none_iff {α : Type} [DecidableEq α] {a : α} :
    ∀ {l : List α}, idxOf? a l = none ↔ a ∉ l := by
  intro l
  induction l with
  | nil => simp [idxOf?]
  | cons b t ih =>
    by_cases hb : b = a
    · subst hb
      simp [idxOf?]
    · rw [show idxOf? a (b :: t) = (idxOf? a t).map (· + 1) by simp [idxOf?, hb]]
      rw [Option.map_eq_none', ih, List.mem_cons]
      constructor
      · rintro h (rfl | hmem)
        · exact hb rfl
        · exact h hmem
      · intro h hmem
        exact h (Or.inr hmem)

theorem idxOf?_isSome_of_mem {α : Type} [DecidableEq α] {a : α} {l : List α} (h : a ∈ l) :
    ∃ i, idxOf? a l = some i := by
  cases hi : idxOf? a l with
  | none => exact absurd h (idxOf?_eq_none_iff.mp hi)
  | some i => exact ⟨i, rfl⟩

theorem idxOf?_append_left {α : Type} [DecidableEq α] {a : α} :
    ∀ {l : List α} (l' : List α) {i : Nat}, idxOf? a l = some i → idxOf? a (l ++ l') = some i := by
  intro l
  induction l with
  | nil => intro l' i h; simp [idxOf?] at h
  | cons b t ih =>
    intro l' i h
    by_cases hb : b = a
    · simp [idxOf?, hb] at h ⊢
      exact h
    · simp [idxOf?, hb] at h ⊢
      obtain ⟨j, hj, rfl⟩ := h
      exact ⟨j, ih l' hj, rfl⟩

theorem idxOf?_append_self {α : Type} [DecidableEq α] {a : α} :
    ∀ {l : List α}, a ∉ l → idxOf? a (l ++ [a]) = some l.length := by
  intro l
  induction l with
  | nil => intro _; simp [idxOf?]
  | cons b t ih =>
    intro h
    simp only [List.mem_cons, not_or] at h
    have hba : ¬b = a := fun hba => h.1 hba.symm
    simp [idxOf?, hba, ih h.2]

theorem getD_set_ne {α : Type} {v d : α} :
    ∀ {l : List α} {i j : Nat}, i ≠ j → (l.set j v).getD i d = l.getD i d := by
  intro l
  induction l with
  | nil => intro i j _; simp
  | cons b t ih =>
    intro i j hij
    cases i with
    | zero =>
      cases j with
      | zero => exact absurd rfl hij
      | succ j' => simp
    | succ i' =>
      cases j with
      | zero => simp
      | succ j' =>
        simp only [List.set_cons_succ, List.getD_cons_succ]
        exact ih (fun h => hij (by omega))

theorem getD_set_self {α : Type} {v d : α} :
    ∀ {l : List α} {i : Nat}, i < l.length → (l.set i v).getD i d = v := by
  intro l
  induction l with
  | nil => intro i h; simp at h
  | cons b t ih =>
    intro i h
    cases i with
    | zero => simp
    | succ i' =>
      simp only [List.set_cons_succ, List.getD_cons_succ]
      exact ih (by simpa using h)

theorem set_getD_self {α : Type} {d : α} :
    ∀ {l : List α} {i : Nat}, l.set i (l.getD i d) = l := by
  intro l
  induction l with
  | nil => intro i; simp
  | cons b t ih =>
    intro i
    cases i with
    | zero => simp
    | succ i' =>
      simp only [List.getD_cons_succ, List.set_cons_succ]
      rw [ih]

theorem getD_append_left {α : Type} {d : α} :
    ∀ {l l' : List α} {i : Nat}, i < l.length → (l ++ l').getD i d = l.getD i d := by
  intro l
  induction l with
  | nil => intro l' i h; simp at h
  | cons b t ih =>
    intro l' i h
    cases i with
    | zero => simp
    | succ i' =>
      simp only [List.cons_append, List.getD_cons_succ]
      exact ih (by simpa using h)

theorem getD_append_len {α : Type} {x d : α} :
    ∀ {l l' : List α}, (l ++ x :: l').getD l.length d = x := by
  intro l
  induction l with
  | nil => intro l'; simp
  | cons b t ih => intro l'; simpa using ih

theorem mem_of_mem_dedupKeepFirst {α : Type} [DecidableEq α] {x : α} :
    ∀ {l seen : List α}, x ∈ dedupKeepFirst seen l → x ∈ l := by
  intro l
  induction l with
  | nil => intro seen h; simp [dedupKeepFirst] at h
  | cons a t ih =>
    intro seen h
    by_cases ha : a ∈ seen
    · simp [dedupKeepFirst, ha] at h
      exact List.mem_cons_of_mem _ (ih h)
    · simp [dedupKeepFirst, ha] at h
      rcases h with h | h
      · simp [h]
      · exact List.mem_cons_of_mem _ (ih h)

theorem not_seen_of_mem_dedupKeepFirst {α : Type} [DecidableEq α] {x : α} :
    ∀ {l seen : List α}, x ∈ dedupKeepFirst seen l → x ∉ seen := by
  intro l
  induction l with
  | nil => intro seen h; simp [dedupKeepFirst] at h
  | cons a t ih =>
    intro seen h
    by_cases ha : a ∈ seen
    · simp [dedupKeepFirst, ha] at h
      exact ih h
    · simp [dedupKeepFirst, ha] at h
      rcases h with h | h
      · subst h; exact ha
      · intro hx
        exact ih h (List.mem_cons_of_mem _ hx)

theorem nodup_dedupKeepFirst {α : Type} [DecidableEq α] :
    ∀ (l seen : List α), (dedupKeepFirst seen l).Nodup := by
  intro l
  induction l with
  | nil => intro seen; simp [dedupKeepFirst]
  | cons a t ih =>
    intro seen
    by_cases ha : a ∈ seen
    · simpa [dedupKeepFirst, ha] using ih seen
    · simp only [dedupKeepFirst, ha, if_neg]
      refine List.nodup_cons.mpr ⟨?_, ih (a :: seen)⟩
      intro hmem
      exact not_seen_of_mem_dedupKeepFirst hmem (List.mem_cons_self a seen)

theorem nodup_dropDuplicatesList {α : Type} [DecidableEq α] (l : List α) :
    (dropDuplicatesList l).Nodup :=
  nodup_dedupKeepFirst l []

theorem mem_of_mem_dropDuplicatesList {α : Type} [DecidableEq α] {x : α} {l : List α}
    (h : x ∈ dropDuplicatesList l) : x ∈ l :=
  mem_of_mem_dedupKeepFirst h

theorem map_id_on {α : Type} {f : α → α} :
    ∀ {l : List α}, (∀ x ∈ l, f x = x) → l.map f = l := by
  intro l
  induction l with
  | nil => intro _; simp
  | cons a t ih =>
    intro h
    simp only [List.map_cons]
    rw [h a (List.mem_cons_self a t), ih (fun x hx => h x (List.mem_cons_of_mem _ hx))]

theorem addQ_eq (a b : ℚ) : addQ a b = a + b :=
  (Rat.add_def' a b).symm

theorem sumQ_eq : ∀ (l : List ℚ), sumQ l = l.sum := by
  intro l
  induction l with
  | nil => rfl
  | cons a t ih => rw [sumQ, addQ_eq, ih, List.sum_cons]

/-! ### Column-layout preservation through the pipeline stages -/

theorem mapColVals_cols (df : DF) (c : String) (f : Value → Value) :
    (mapColVals df c f).cols = df.cols := by
  unfold mapColVals
  cases idxOf? c df.cols <;> rfl

theorem dropnaSubset_cols (df : DF) (s : List String) : (dropnaSubset df s).cols = df.cols :=
  rfl

theorem standardizeDates_cols (df : DF) : (standardizeDates df).cols = df.cols := by
  unfold standardizeDates
  split
  · exact mapColVals_cols df _ _
  · rfl

theorem dropMissingCritical_cols (df : DF) : (dropMissingCritical df).cols = df.cols := by
  unfold dropMissingCritical
  split
  · rfl
  · rfl

theorem dateStage_cols (df : DF) : (dateStage df).cols = df.cols := by
  unfold dateStage
  split
  · exact standardizeDates_cols df
  · rfl

theorem dedupStage_cols (df : DF) : (dedupStage df).cols = df.cols :=
  rfl

theorem coerceAmounts_cols (df : DF) : (coerceAmounts df).cols = df.cols :=
  mapColVals_cols df _ _

theorem filterNonneg_cols (df : DF) : (filterNonneg df).cols = df.cols :=
  rfl

theorem amountStage_cols (df : DF) : (amountStage df).cols = df.cols := by
  unfold amountStage
  split
  · rw [filterNonneg_cols, coerceAmounts_cols]
  · rfl

/-! ### Cell transport: stages only touch their own column -/

theorem getCell_set_of_ne (cols : List String) {c c' : String} (hne : c ≠ c') {i : Nat}
    (hi : idxOf? c' cols = some i) (r : List Value) (v : Value) :
    getCell cols c (r.set i v) = getCell cols c r := by
  unfold getCell
  cases hj : idxOf? c cols with
  | none => rfl
  | some j => exact getD_set_ne (idxOf?_ne_of_ne hne hj hi)

theorem mapColVals_rows_surj (df : DF) (c : String) (f : Value → Value) :
    ∀ r' ∈ (mapColVals df c f).rows, ∃ r ∈ df.rows,
      ∀ c', c' ≠ c → getCell df.cols c' r' = getCell df.cols c' r := by
  intro r' h
  unfold mapColVals at h
  split at h
  case h_1 i hi =>
    simp only [List.mem_map] at h
    obtain ⟨r, hr, rfl⟩ := h
    exact ⟨r, hr, fun c' hc' => getCell_set_of_ne df.cols hc' hi r _⟩
  case h_2 =>
    exact ⟨r', h, fun _ _ => rfl⟩

theorem standardizeDates_rows_surj (df : DF) :
    ∀ r' ∈ (standardizeDates df).rows, ∃ r ∈ df.rows,
      ∀ c', c' ≠ "transaction_date" → getCell df.cols c' r' = getCell df.cols c' r := by
  intro r' h
  unfold standardizeDates at h
  split at h
  · exact mapColVals_rows_surj df _ _ r' h
  · exact ⟨r', h, fun _ _ => rfl⟩

theorem dateStage_rows_surj (df : DF) :
    ∀ r' ∈ (dateStage df).rows, ∃ r ∈ df.rows,
      ∀ c', c' ≠ "transaction_date" → getCell df.cols c' r' = getCell df.cols c' r := by
  intro r' h
  unfold dateStage at h
  split at h
  · exact standardizeDates_rows_surj df r' h
  · exact ⟨r', h, fun _ _ => rfl⟩

theorem dropnaSubset_rows_sub (df : DF) (s : List String) :
    ∀ r ∈ (dropnaSubset df s).rows, r ∈ df.rows := by
  intro r h
  exact List.mem_of_mem_filter h

theorem dedupStage_rows_sub (df : DF) :
    ∀ r ∈ (dedupStage df).rows, r ∈ df.rows := by
  intro r h
  exact mem_of_mem_dropDuplicatesList h

/-! ### Claim C1 -/

/-- **C1, counterexample.**  The claim says `amount_category` returns
`'unknown'` for every non-numeric amount, including values that the
preceding numeric coercion turned into a missing value.  On the code,
`pd.to_numeric` turns the unconvertible string `"abc"` into a missing
value, and `categorize_amount` maps a missing value to `'high'` (the NaN
float converts without raising and fails both threshold comparisons), not
`'unknown'`. -/
theorem C1_counterexample :
    to_numeric (Value.str "abc") = Value.nan
  ∧ categorize_amount Value.nan = "high"
  ∧ categorize_amount Value.nan ≠ "unknown" := by
  decide

/-- **C1 (amended).**  For numeric amounts `categorize_amount` returns
`'low'` iff the amount is below 50, `'medium'` iff it lies in `[50, 200]`,
and `'high'` iff it exceeds 200; a string behaves like the number it
parses to, and an unparseable string (where `float()` raises) yields
`'unknown'`; but a missing value — in particular one produced by the
preceding numeric coercion — yields `'high'`, not `'unknown'`. -/
theorem C1_categorize_amount_spec (q : ℚ) (s : String) :
    (categorize_amount (Value.num q) = "low" ↔ q < 50)
  ∧ (categorize_amount (Value.num q) = "medium" ↔ 50 ≤ q ∧ q ≤ 200)
  ∧ (categorize_amount (Value.num q) = "high" ↔ 200 < q)
  ∧ categorize_amount Value.nan = "high"
  ∧ (parseDecimal s = none → categorize_amount (Value.str s) = "unknown")
  ∧ (∀ q', parseDecimal s = some q' →
      categorize_amount (Value.str s) = categorize_amount (Value.num q')) := by
  refine ⟨?_, ?_, ?_, by decide, ?_, ?_⟩
  · by_cases h1 : q < 50
    · simp [categorize_amount, tryFloat, floatLt, h1]
    · by_cases h2 : q ≤ 200
      · simp [categorize_amount, tryFloat, floatLt, floatLe, h1, h2]
      · simp [categorize_amount, tryFloat, floatLt, floatLe, h1, h2]
  · by_cases h1 : q < 50
    · simp [categorize_amount, tryFloat, floatLt, h1]
    · by_cases h2 : q ≤ 200
      · simp [categorize_amount, tryFloat, floatLt, floatLe, h1, h2]
        linarith
      · simp [categorize_amount, tryFloat, floatLt, floatLe, h1, h2]
  · by_cases h1 : q < 50
    · simp [categorize_amount, tryFloat, floatLt, h1]
      linarith
    · by_cases h2 : q ≤ 200
      · simp [categorize_amount, tryFloat, floatLt, floatLe, h1, h2]
      · simp [categorize_amount, tryFloat, floatLt, floatLe, h1, h2]
        linarith
  · intro h
    simp [categorize_amount, tryFloat, h]
  · intro q' h
    simp [categorize_amount, tryFloat, h]

/-- **C1, witness.** -/
theorem C1_categorize_amount_witness :
    (categorize_amount (Value.num 30) = "low" ↔ (30 : ℚ) < 50)
  ∧ categorize_amount (Value.str "abc") = "unknown" :=
  ⟨(C1_categorize_amount_spec 30 "abc").1,
   (C1_categorize_amount_spec 30 "abc").2.2.2.2.1 (by decide)⟩

/-! ### Claim C7 -/

/-- **C7.**  An absent or empty input short-circuits the pipeline: the
cleaner emits "no data" (`none`) on `None` and on an empty batch, the
enricher propagates `None`, and `main`'s orchestration then skips every
downstream stage — in particular, on an empty provider response nothing
is written (the store is untouched and no save is attempted) and no error
is raised. -/
theorem C7_empty_input_short_circuit (db : DB) (fl : Failures) (df : DF)
    (hdf : df.rows = []) :
    runPipeline none db fl = Except.ok ⟨none, none, false, db⟩
  ∧ runPipeline (some df) db fl = Except.ok ⟨none, none, false, db⟩
  ∧ clean_data none = none
  ∧ clean_data (some df) = none
  ∧ enrich_data none = Except.ok none := by
  have hc : clean_data (some df) = none := by
    simp [clean_data, hdf]
  exact ⟨rfl, by simp [runPipeline, hc], rfl, hc, rfl⟩

/-- **C7, witness.** -/
theorem C7_empty_input_witness :
    runPipeline (some ⟨["transaction_date"], []⟩) emptyDB noFailures
      = Except.ok ⟨none, none, false, emptyDB⟩ :=
  (C7_empty_input_short_circuit emptyDB noFailures ⟨["transaction_date"], []⟩ rfl).2.1

/-! ### Claim C9 -/

/-- **C9.**  On a non-empty batch without a `transaction_amount` column,
the enricher returns the batch unchanged — neither an `amount_category`
nor a `total_customer_transactions` column is added — and the cleaner
skips the negative-amount filter entirely, its output being exactly the
dedup of the date-standardized, critical-field-filtered batch. -/
theorem C9_no_amount_column (df : DF) (h1 : df.rows ≠ []) (h2 : "transaction_amount" ∉ df.cols) :
    enrich_data (some df) = Except.ok (some df)
  ∧ clean_data (some df) = some (dedupStage (dateStage (dropMissingCritical df))) := by
  have hne : df.rows.isEmpty = false := by
    cases hr : df.rows with
    | nil => exact absurd hr h1
    | cons a t => rfl
  constructor
  · simp [enrich_data, hne, h2]
  · have hcols : "transaction_amount" ∉ (dedupStage (dateStage (dropMissingCritical df))).cols := by
      rw [dedupStage_cols, dateStage_cols, dropMissingCritical_cols]
      exact h2
    simp [clean_data, hne, amountStage, hcols]

/-- **C9, witness** (the negative amount survives cleaning because the
`transaction_amount` column is absent). -/
theorem C9_no_amount_column_witness :
    enrich_data (some ⟨["x"], [[Value.num (mkRat (-5) 1)]]⟩)
      = Except.ok (some ⟨["x"], [[Value.num (mkRat (-5) 1)]]⟩)
  ∧ clean_data (some ⟨["x"], [[Value.num (mkRat (-5) 1)]]⟩)
      = some (dedupStage (dateStage (dropMissingCritical ⟨["x"], [[Value.num (mkRat (-5) 1)]]⟩))) :=
  C9_no_amount_column ⟨["x"], [[Value.num (mkRat (-5) 1)]]⟩ (by decide) (by decide)

/-! ### Claim C2 -/

theorem dropMissingCritical_rows_sub (df : DF) :
    ∀ r ∈ (dropMissingCritical df).rows, r ∈ df.rows := by
  intro r h
  unfold dropMissingCritical at h
  split at h
  · exact h
  · exact List.mem_of_mem_filter h

theorem nonnegNum_spec {v : Value} (h : nonnegNum v = true) :
    ∃ q : ℚ, v = Value.num q ∧ 0 ≤ q := by
  cases v with
  | num q => exact ⟨q, rfl, by simpa [nonnegNum] using h⟩
  | nan => simp [nonnegNum] at h
  | str s => simp [nonnegNum] at h

theorem to_numeric_id_of_isNumOrNan {v : Value} (h : isNumOrNan v = true) :
    to_numeric v = v := by
  cases v with
  | num q => rfl
  | nan => rfl
  | str s => simp [isNumOrNan] at h

/-- **C2, counterexample.**  Deduplication runs before the numeric
coercion of `transaction_amount`, so a batch carrying the same amount once
as the string `"30"` and once as the number `30` passes dedup as two
distinct records which the coercion then makes identical: the cleaner's
output contains two records equal on all fields. -/
theorem C2_counterexample :
    clean_data (some ⟨["transaction_amount"], [[Value.str "30"], [Value.num 30]]⟩)
      = some ⟨["transaction_amount"], [[Value.num 30], [Value.num 30]]⟩
  ∧ ¬ ([[Value.num 30], [Value.num 30]] : List (List Value)).Nodup := by
  exact ⟨by decide, by decide⟩

/-- **C2 (amended).**  For every raw batch with a `transaction_amount`
column, every record of the cleaner's output carries a present,
non-negative numeric `transaction_amount` — records whose amount coerces
to missing or is negative are dropped rather than raising; and when every
input amount cell is already numeric or missing — so that the post-dedup
coercion cannot conflate records that were distinct at dedup time, which
the counterexample shows it otherwise can — the output contains no two
records equal on all fields. -/
theorem C2_clean_output (df : DF) (hcol : "transaction_amount" ∈ df.cols) :
    ∀ d, clean_data (some df) = some d →
      "transaction_amount" ∈ d.cols
    ∧ (∀ r ∈ d.rows, ∃ q : ℚ, getCell d.cols "transaction_amount" r = Value.num q ∧ 0 ≤ q)
    ∧ ((∀ r ∈ df.rows, isNumOrNan (getCell df.cols "transaction_amount" r) = true) →
        d.rows.Nodup) := by
  intro d hd
  by_cases hemp : df.rows.isEmpty = true
  · simp [clean_data, hemp] at hd
  · simp only [clean_data, hemp, Bool.false_eq_true, if_false, Option.some.injEq] at hd
    subst hd
    set A := dropMissingCritical df with hA
    set X := dedupStage (dateStage A) with hX
    have hXcols : X.cols = df.cols := by
      rw [hX, dedupStage_cols, dateStage_cols, hA, dropMissingCritical_cols]
    have hcolX : "transaction_amount" ∈ X.cols := by rw [hXcols]; exact hcol
    obtain ⟨i, hi⟩ := idxOf?_isSome_of_mem hcolX
    have hamt : amountStage X = filterNonneg (coerceAmounts X) := by
      unfold amountStage
      rw [if_pos hcolX]
    rw [hamt]
    have hYcols : (coerceAmounts X).cols = df.cols := by rw [coerceAmounts_cols, hXcols]
    refine ⟨?_, ?_, ?_⟩
    · show "transaction_amount" ∈ (coerceAmounts X).cols
      rw [hYcols]
      exact hcol
    · intro r hr
      have hr' := List.mem_filter.mp hr
      obtain ⟨q, heq, hq⟩ := nonnegNum_spec hr'.2
      refine ⟨q, ?_, hq⟩
      show getCell (coerceAmounts X).cols "transaction_amount" r = Value.num q
      exact heq
    · intro hnum
      have hnumX : ∀ r ∈ X.rows, isNumOrNan (getCell df.cols "transaction_amount" r) = true := by
        intro r hr
        have hr2 := dedupStage_rows_sub (dateStage A) r hr
        obtain ⟨r0, hr0, hcells⟩ := dateStage_rows_surj A r hr2
        have hcell := hcells "transaction_amount" (by decide)
        have hAcols : A.cols = df.cols := by rw [hA, dropMissingCritical_cols]
        rw [hAcols] at hcell
        rw [hcell]
        exact hnum r0 (dropMissingCritical_rows_sub df r0 hr0)
      have hrows : (coerceAmounts X).rows = X.rows := by
        unfold coerceAmounts mapColVals
        rw [hi]
        simp only []
        apply map_id_on
        intro r hr
        have hcell : getCell X.cols "transaction_amount" r = r.getD i Value.nan := by
          unfold getCell
          rw [hi]
        have hni : isNumOrNan (r.getD i Value.nan) = true := by
          rw [← hcell, hXcols]
          exact hnumX r hr
        rw [to_numeric_id_of_isNumOrNan hni]
        exact set_getD_self
      have hXnodup : X.rows.Nodup := by
        rw [hX]
        exact nodup_dropDuplicatesList _
      show ((coerceAmounts X).rows.filter _).Nodup
      rw [hrows]
      exact hXnodup.filter _

/-- **C2, witness** (a batch of string amounts `"7.5"`, `"-4"`, `"abc"`
and a missing cell: the unparseable and negative amounts are dropped
without an error and the surviving record's amount is a non-negative
number; an all-numeric batch also yields a duplicate-free output). -/
theorem C2_clean_output_witness :
    "transaction_amount" ∈ ["transaction_amount"]
  ∧ (∃ q : ℚ, getCell ["transaction_amount"] "transaction_amount" [Value.num (mkRat 15 2)]
      = Value.num q ∧ 0 ≤ q)
  ∧ ([[Value.num 30]] : List (List Value)).Nodup :=
  ⟨(C2_clean_output
      ⟨["transaction_amount"],
        [[Value.str "7.5"], [Value.str "-4"], [Value.str "abc"], [Value.nan]]⟩
      (by decide) ⟨["transaction_amount"], [[Value.num (mkRat 15 2)]]⟩ (by decide)).1,
   (C2_clean_output
      ⟨["transaction_amount"],
        [[Value.str "7.5"], [Value.str "-4"], [Value.str "abc"], [Value.nan]]⟩
      (by decide) ⟨["transaction_amount"], [[Value.num (mkRat 15 2)]]⟩ (by decide)).2.1
     [Value.num (mkRat 15 2)] (by decide),
   (C2_clean_output
      ⟨["transaction_amount"],
        [[Value.num 30], [Value.num (mkRat (-5) 1)], [Value.nan], [Value.num 30]]⟩
      (by decide) ⟨["transaction_amount"], [[Value.num 30]]⟩ (by decide)).2.2 (by decide)⟩

/-! ### Claim C6 -/

theorem mapColVals_rows_length (df : DF) (c : String) (f : Value → Value) :
    (mapColVals df c f).rows.length = df.rows.length := by
  unfold mapColVals
  cases idxOf? c df.cols with
  | none => rfl
  | some i => simp

theorem standardizeDates_rows_length (df : DF) :
    (standardizeDates df).rows.length = df.rows.length := by
  unfold standardizeDates
  split
  · exact mapColVals_rows_length df _ _
  · rfl

theorem dateStage_eq_standardize {df : DF} (h : "transaction_date" ∈ df.cols) :
    dateStage df = standardizeDates df := by
  unfold dateStage
  rw [if_pos h]

theorem coerceAmounts_rows_surj (df : DF) :
    ∀ r' ∈ (coerceAmounts df).rows, ∃ r ∈ df.rows,
      ∀ c', c' ≠ "transaction_amount" → getCell df.cols c' r' = getCell df.cols c' r :=
  mapColVals_rows_surj df _ _

theorem amountStage_rows_surj (df : DF) :
    ∀ r' ∈ (amountStage df).rows, ∃ r ∈ df.rows,
      ∀ c', c' ≠ "transaction_amount" → getCell df.cols c' r' = getCell df.cols c' r := by
  intro r' h
  unfold amountStage at h
  split at h
  · exact coerceAmounts_rows_surj df r' (List.mem_of_mem_filter h)
  · exact ⟨r', h, fun _ _ => rfl⟩

theorem standardizeDates_norm (df : DF) (hall : allDatesParse df = true)
    (hcol : "transaction_date" ∈ df.cols) :
    ∀ r ∈ (standardizeDates df).rows, ∃ dt : Date,
      getCell df.cols "transaction_date" r = Value.str (formatDate dt) := by
  intro r hr
  obtain ⟨i, hi⟩ := idxOf?_isSome_of_mem hcol
  unfold standardizeDates at hr
  rw [if_pos hall] at hr
  unfold mapColVals at hr
  rw [hi] at hr
  simp only [List.mem_map] at hr
  obtain ⟨r0, hr0, rfl⟩ := hr
  have hcell : getCell df.cols "transaction_date" r0 = r0.getD i Value.nan := by
    unfold getCell
    rw [hi]
  have hparse : (parseDate (r0.getD i Value.nan)).isSome = true := by
    rw [← hcell]
    exact List.all_eq_true.mp hall r0 hr0
  obtain ⟨dt, hdt⟩ := Option.isSome_iff_exists.mp hparse
  have hlen : i < r0.length := by
    by_contra hle
    rw [List.getD_eq_default _ _ (by omega)] at hdt
    simp [parseDate] at hdt
  refine ⟨dt, ?_⟩
  have : getCell df.cols "transaction_date" (r0.set i (normDate (r0.getD i Value.nan)))
      = normDate (r0.getD i Value.nan) := by
    unfold getCell
    rw [hi]
    exact getD_set_self hlen
  rw [this]
  unfold normDate
  rw [hdt]

/-- **C6.**  The cleaner never drops a record for an unparseable
`transaction_date`: the date step preserves the number of rows; when every
date of the batch (after the missing-critical-field drop) parses, every
date cell of the cleaner's output is a normalized `YYYY-MM-DD` rendering;
when any date fails to parse, the batch-level conversion is caught and the
whole column is left unchanged, and the cleaner still returns a batch —
the remaining stages applied to the untouched frame. -/
theorem C6_date_handling (df : DF) (h1 : df.rows ≠ []) (h2 : "transaction_date" ∈ df.cols) :
    (standardizeDates (dropMissingCritical df)).rows.length
        = (dropMissingCritical df).rows.length
  ∧ clean_data (some df)
        = some (amountStage (dedupStage (standardizeDates (dropMissingCritical df))))
  ∧ (allDatesParse (dropMissingCritical df) = true →
      ∀ d, clean_data (some df) = some d → ∀ r ∈ d.rows,
        ∃ dt : Date, getCell d.cols "transaction_date" r = Value.str (formatDate dt))
  ∧ (allDatesParse (dropMissingCritical df) = false →
      standardizeDates (dropMissingCritical df) = dropMissingCritical df) := by
  have hne : df.rows.isEmpty = false := by
    cases hr : df.rows with
    | nil => exact absurd hr h1
    | cons a t => rfl
  set A := dropMissingCritical df with hA
  have hAcols : A.cols = df.cols := by rw [hA, dropMissingCritical_cols]
  have hdate : "transaction_date" ∈ A.cols := by rw [hAcols]; exact h2
  have hclean : clean_data (some df)
      = some (amountStage (dedupStage (standardizeDates A))) := by
    simp only [clean_data, hne, Bool.false_eq_true, if_false]
    rw [dateStage_eq_standardize hdate]
  refine ⟨standardizeDates_rows_length A, hclean, ?_, ?_⟩
  · intro hall d hd r hr
    rw [hclean] at hd
    have hd' : d = amountStage (dedupStage (standardizeDates A)) := by
      exact (Option.some.injEq _ _ ▸ hd.symm)
    subst hd'
    set B := standardizeDates A with hB
    have hBcols : B.cols = df.cols := by rw [hB, standardizeDates_cols, hAcols]
    have hDcols : (dedupStage B).cols = df.cols := by rw [dedupStage_cols, hBcols]
    obtain ⟨r1, hr1, hcells⟩ := amountStage_rows_surj (dedupStage B) r hr
    have hcell := hcells "transaction_date" (by decide)
    rw [hDcols] at hcell
    have hr2 : r1 ∈ B.rows := dedupStage_rows_sub B r1 hr1
    obtain ⟨dt, hdt⟩ := standardizeDates_norm A hall hdate r1 (by rw [← hB]; exact hr2)
    rw [hAcols] at hdt
    refine ⟨dt, ?_⟩
    have hgoalcols : (amountStage (dedupStage B)).cols = df.cols := by
      rw [amountStage_cols, hDcols]
    rw [hgoalcols, hcell, hdt]
  · intro hfail
    unfold standardizeDates
    rw [if_neg (by rw [hfail]; exact Bool.false_ne_true)]

/-- **C6, witness.** -/
theorem C6_date_handling_witness :
    clean_data (some ⟨["transaction_date"], [[Value.str "2023-1-5"]]⟩)
      = some (amountStage (dedupStage (standardizeDates
          (dropMissingCritical ⟨["transaction_date"], [[Value.str "2023-1-5"]]⟩))))
  ∧ ∃ dt : Date, getCell ["transaction_date"] "transaction_date" [Value.str "2023-01-05"]
      = Value.str (formatDate dt) :=
  ⟨(C6_date_handling ⟨["transaction_date"], [[Value.str "2023-1-5"]]⟩ (by decide) (by decide)).2.1,
   (C6_date_handling ⟨["transaction_date"], [[Value.str "2023-1-5"]]⟩ (by decide) (by decide)).2.2.1
     (by decide) ⟨["transaction_date"], [[Value.str "2023-01-05"]]⟩ (by decide)
     [Value.str "2023-01-05"] (by decide)⟩

/-! ### Claim C3 -/

theorem DF_ext {a b : DF} (h1 : a.cols = b.cols) (h2 : a.rows = b.rows) : a = b := by
  cases a
  cases b
  simp_all

theorem isNumOrNan_of_isNumV {v : Value} (h : isNumV v = true) : isNumOrNan v = true := by
  cases v <;> simp_all [isNumV, isNumOrNan]

theorem coerceAmounts_id (df : DF)
    (hnum : ∀ r ∈ df.rows, isNumOrNan (getCell df.cols "transaction_amount" r) = true) :
    coerceAmounts df = df := by
  unfold coerceAmounts mapColVals
  cases hi : idxOf? "transaction_amount" df.cols with
  | none => rfl
  | some i =>
    refine DF_ext rfl ?_
    apply map_id_on
    intro r hr
    have hcell : getCell df.cols "transaction_amount" r = r.getD i Value.nan := by
      unfold getCell
      rw [hi]
    rw [to_numeric_id_of_isNumOrNan (by rw [← hcell]; exact hnum r hr)]
    exact set_getD_self

theorem setCol_of_not_mem (df : DF) (c : String) (f : List Value → Value) (h : c ∉ df.cols) :
    setCol df c f = ⟨df.cols ++ [c], df.rows.map (fun r => r ++ [f r])⟩ := by
  unfold setCol
  rw [idxOf?_eq_none_iff.mpr h]

theorem idxOf?_append_none {α : Type} [DecidableEq α] {a b : α} {l : List α}
    (h1 : a ∉ l) (h2 : a ≠ b) : idxOf? a (l ++ [b]) = none := by
  rw [idxOf?_eq_none_iff]
  simp [h1, h2]

theorem getCell_append_self (cols : List String) (c : String) (r : List Value) (v : Value)
    (hc : c ∉ cols) (hlen : r.length = cols.length) :
    getCell (cols ++ [c]) c (r ++ [v]) = v := by
  unfold getCell
  rw [idxOf?_append_self hc, ← hlen]
  exact getD_append_len

theorem getCell_append_ne (cols : List String) {c c' : String} (r : List Value) (v : Value)
    (hne : c ≠ c') (hlen : r.length = cols.length) :
    getCell (cols ++ [c']) c (r ++ [v]) = getCell cols c r := by
  unfold getCell
  cases hi : idxOf? c cols with
  | some i =>
    rw [idxOf?_append_left [c'] hi]
    exact getD_append_left (hlen ▸ idxOf?_lt_length hi)
  | none =>
    rw [idxOf?_append_none (idxOf?_eq_none_iff.mp hi) hne]

theorem customerTotal_congr (cols cols' : List String) (e : List Value → List Value) (k : Value) :
    ∀ rows : List (List Value),
      (∀ r ∈ rows, getCell cols' "customer_id" (e r) = getCell cols "customer_id" r
        ∧ getCell cols' "transaction_amount" (e r) = getCell cols "transaction_amount" r) →
      customerTotal ⟨cols', rows.map e⟩ k = customerTotal ⟨cols, rows⟩ k := by
  intro rows
  induction rows with
  | nil => intro _; rfl
  | cons r t ih =>
    intro hkeep
    have hk := (hkeep r (List.mem_cons_self r t)).1
    have ha := (hkeep r (List.mem_cons_self r t)).2
    have iht := ih (fun x hx => hkeep x (List.mem_cons_of_mem _ hx))
    simp only [customerTotal, List.map_cons, List.filter_cons] at iht ⊢
    rw [hk]
    by_cases hc : getCell cols "customer_id" r = k
    · rw [if_pos (decide_eq_true hc), if_pos (decide_eq_true hc), List.map_cons, List.map_cons]
      simp only [sumQ]
      rw [ha, iht]
    · rw [if_neg (by simp [hc]), if_neg (by simp [hc])]
      exact iht

/-- **C3.**  For every non-empty cleaned batch (both columns present, all
amounts numeric, customer ids present, rows aligned with the column
layout, enrichment columns not yet present), every enriched record carries
`total_customer_transactions` equal to the sum of `transaction_amount`
over all records of the batch sharing its `customer_id`; and that
per-customer sum is invariant under any reordering of the batch's
records. -/
theorem C3_totals (df : DF)
    (hwf : ∀ r ∈ df.rows, r.length = df.cols.length)
    (hamt : "transaction_amount" ∈ df.cols)
    (hcust : "customer_id" ∈ df.cols)
    (hnum : ∀ r ∈ df.rows, isNumV (getCell df.cols "transaction_amount" r) = true)
    (hkey : ∀ r ∈ df.rows, getCell df.cols "customer_id" r ≠ Value.nan)
    (hnc1 : "amount_category" ∉ df.cols)
    (hnc2 : "total_customer_transactions" ∉ df.cols) :
    (∀ out, enrich_data (some df) = Except.ok (some out) →
      ∀ r ∈ out.rows,
        getCell out.cols "customer_id" r ≠ Value.nan
      ∧ getCell out.cols "total_customer_transactions" r
          = Value.num (customerTotal df (getCell out.cols "customer_id" r)))
  ∧ (∀ df2 : DF, df2.cols = df.cols → df2.rows.Perm df.rows →
      ∀ k, customerTotal df2 k = customerTotal df k) := by
  constructor
  · intro out hout r hr
    by_cases hemp : df.rows.isEmpty = true
    · simp [enrich_data, hemp] at hout
    · simp only [enrich_data, hemp, Bool.false_eq_true, if_false, if_pos hamt, if_pos hcust,
        Except.ok.injEq, Option.some.injEq] at hout
      rw [coerceAmounts_id df (fun r hr => isNumOrNan_of_isNumV (hnum r hr))] at hout
      subst hout
      unfold addCategory at hr ⊢
      rw [setCol_of_not_mem df _ _ hnc1] at hr ⊢
      set fcat : List Value → Value :=
        fun r => Value.str (categorize_amount (getCell df.cols "transaction_amount" r)) with hfcat
      have hnc2' : "total_customer_transactions" ∉ df.cols ++ ["amount_category"] := by
        simp [hnc2]
      unfold addTotals at hr ⊢
      rw [setCol_of_not_mem _ _ _ hnc2'] at hr ⊢
      simp only [List.mem_map] at hr
      obtain ⟨r1, hr1, rfl⟩ := hr
      obtain ⟨r0, hr0, rfl⟩ := hr1
      have hlen0 : r0.length = df.cols.length := hwf r0 hr0
      have hlen1 : (r0 ++ [fcat r0]).length = (df.cols ++ ["amount_category"]).length := by
        simp [hlen0]
      have hkeycell :
          getCell ((df.cols ++ ["amount_category"]) ++ ["total_customer_transactions"])
              "customer_id"
              ((r0 ++ [fcat r0]) ++
                [match getCell (df.cols ++ ["amount_category"]) "customer_id" (r0 ++ [fcat r0]) with
                 | Value.nan => Value.nan
                 | k => Value.num (customerTotal ⟨df.cols ++ ["amount_category"],
                     df.rows.map (fun r => r ++ [fcat r])⟩ k)])
            = getCell df.cols "customer_id" r0 := by
        rw [getCell_append_ne _ _ _ (by decide) hlen1, getCell_append_ne _ _ _ (by decide) hlen0]
      have hinner : getCell (df.cols ++ ["amount_category"]) "customer_id" (r0 ++ [fcat r0])
          = getCell df.cols "customer_id" r0 :=
        getCell_append_ne _ _ _ (by decide) hlen0
      have htotcell :
          getCell ((df.cols ++ ["amount_category"]) ++ ["total_customer_transactions"])
              "total_customer_transactions"
              ((r0 ++ [fcat r0]) ++
                [match getCell (df.cols ++ ["amount_category"]) "customer_id" (r0 ++ [fcat r0]) with
                 | Value.nan => Value.nan
                 | k => Value.num (customerTotal ⟨df.cols ++ ["amount_category"],
                     df.rows.map (fun r => r ++ [fcat r])⟩ k)])
            = (match getCell (df.cols ++ ["amount_category"]) "customer_id" (r0 ++ [fcat r0]) with
               | Value.nan => Value.nan
               | k => Value.num (customerTotal ⟨df.cols ++ ["amount_category"],
                   df.rows.map (fun r => r ++ [fcat r])⟩ k)) :=
        getCell_append_self _ _ _ _ hnc2' hlen1
      have htotals : customerTotal ⟨df.cols ++ ["amount_category"],
          df.rows.map (fun r => r ++ [fcat r])⟩ (getCell df.cols "customer_id" r0)
          = customerTotal df (getCell df.cols "customer_id" r0) := by
        have := customerTotal_congr df.cols (df.cols ++ ["amount_category"])
          (fun r => r ++ [fcat r]) (getCell df.cols "customer_id" r0) df.rows
          (fun x hx => ⟨getCell_append_ne _ _ _ (by decide) (hwf x hx),
            getCell_append_ne _ _ _ (by decide) (hwf x hx)⟩)
        rw [this]
      constructor
      · rw [hkeycell]
        exact hkey r0 hr0
      · rw [hkeycell, htotcell, hinner]
        cases hkv : getCell df.cols "customer_id" r0 with
        | nan => exact absurd hkv (hkey r0 hr0)
        | num q =>
          rw [hkv] at htotals
          exact congrArg Value.num htotals
        | str s =>
          rw [hkv] at htotals
          exact congrArg Value.num htotals
  · intro df2 hcols hperm k
    unfold customerTotal
    rw [hcols, sumQ_eq, sumQ_eq]
    exact List.Perm.sum_eq ((hperm.filter _).map _)

/-- **C3, witness** (two records of customer "A" with amounts 30 and 220;
each enriched record carries the batch total). -/
theorem C3_totals_witness :
    getCell ["customer_id", "transaction_amount", "amount_category", "total_customer_transactions"]
        "customer_id" [Value.str "A", Value.num 30, Value.str "low", Value.num 250] ≠ Value.nan
  ∧ getCell ["customer_id", "transaction_amount", "amount_category", "total_customer_transactions"]
        "total_customer_transactions" [Value.str "A", Value.num 30, Value.str "low", Value.num 250]
      = Value.num (customerTotal
          ⟨["customer_id", "transaction_amount"],
            [[Value.str "A", Value.num 30], [Value.str "A", Value.num 220]]⟩
          (getCell ["customer_id", "transaction_amount", "amount_category",
              "total_customer_transactions"] "customer_id"
            [Value.str "A", Value.num 30, Value.str "low", Value.num 250])) :=
  (C3_totals ⟨["customer_id", "transaction_amount"],
      [[Value.str "A", Value.num 30], [Value.str "A", Value.num 220]]⟩
    (by decide) (by decide) (by decide) (by decide) (by decide) (by decide) (by decide)).1
    ⟨["customer_id", "transaction_amount", "amount_category", "total_customer_transactions"],
      [[Value.str "A", Value.num 30, Value.str "low", Value.num 250],
       [Value.str "A", Value.num 220, Value.str "high", Value.num 250]]⟩
    (by decide) [Value.str "A", Value.num 30, Value.str "low", Value.num 250] (by decide)

/-! ### Claims C4, C8, C5: the writer -/

theorem step_mem_stepOrder (s : Step) : s ∈ stepOrder := by
  cases s <;> simp [stepOrder]

theorem runSteps_all_ok (df : DF) (fl : Step → Bool) :
    ∀ (l : List Step) (p : DB), (∀ s ∈ l, fl s = false) →
      runSteps p df fl l = (l.foldl (fun d s => applyStep d df s) p, l.map DBEvent.write, true) := by
  intro l
  induction l with
  | nil => intro p _; rfl
  | cons s rest ih =>
    intro p h
    have hs : fl s = false := h s (List.mem_cons_self s rest)
    simp only [runSteps, hs, Bool.false_eq_true, if_false]
    rw [ih (applyStep p df s) (fun x hx => h x (List.mem_cons_of_mem _ hx))]
    simp

theorem runSteps_events_write (df : DF) (fl : Step → Bool) :
    ∀ (l : List Step) (p : DB) (e : DBEvent),
      e ∈ (runSteps p df fl l).2.1 → ∃ s, e = DBEvent.write s := by
  intro l
  induction l with
  | nil => intro p e h; simp [runSteps] at h
  | cons s rest ih =>
    intro p e h
    by_cases hs : fl s = true
    · simp [runSteps, hs] at h
    · simp only [runSteps, hs, Bool.false_eq_true, if_false, List.mem_cons] at h
      rcases h with h | h
      · exact ⟨s, h⟩
      · exact ih _ e h

theorem runSteps_ok_false (df : DF) (fl : Step → Bool) :
    ∀ (l : List Step) (p : DB) (s0 : Step), s0 ∈ l → fl s0 = true →
      (runSteps p df fl l).2.2 = false := by
  intro l
  induction l with
  | nil => intro p s0 h _; simp at h
  | cons s rest ih =>
    intro p s0 hmem hs0
    by_cases hs : fl s = true
    · simp [runSteps, hs]
    · rcases List.mem_cons.mp hmem with rfl | hmem'
      · exact absurd hs0 hs
      · simp only [runSteps, hs, Bool.false_eq_true, if_false]
        exact ih _ s0 hmem' hs0

theorem commit_not_in_failure_trace (df : DF) (fl : Step → Bool) (l : List Step) (p : DB) :
    DBEvent.commit ∉
      DBEvent.openConn :: (runSteps p df fl l).2.1 ++ [DBEvent.rollback, DBEvent.closeConn] := by
  intro h
  simp only [List.mem_cons, List.mem_append] at h
  rcases h with (h | h) | h
  · exact DBEvent.noConfusion h
  · obtain ⟨s, hs⟩ := runSteps_events_write df fl l p DBEvent.commit h
    exact DBEvent.noConfusion hs
  · simp at h

/-- A fully successful call: the committed state is all six steps applied
in order, and the trace is open, the six writes, one commit right after
the fact write, then close. -/
theorem save_all_ok (store : DB) (df : DF) (fl : Failures)
    (h1 : ∀ s, fl.stepFail s = false) (h2 : fl.commitFail = false)
    (h3 : fl.connectFail = false) (h4 : astypeOk df = true) :
    save_to_database store df fl =
      ⟨applyAllSteps store (astypeApply df),
       [DBEvent.openConn, DBEvent.write Step.customers, DBEvent.write Step.products,
        DBEvent.write Step.txTypes, DBEvent.write Step.spendCats, DBEvent.write Step.amountCats,
        DBEvent.write Step.facts, DBEvent.commit, DBEvent.closeConn]⟩ := by
  unfold save_to_database
  rw [if_neg (by rw [h4]; simp), if_neg (by rw [h3]; simp)]
  rw [runSteps_all_ok (astypeApply df) fl.stepFail stepOrder store (fun s _ => h1 s)]
  simp [h2, stepOrder, applyAllSteps]

/-- **C4.**  If any part of the six-step write fails — a step, the commit,
the connection, or the pre-connection `astype` — the committed store state
equals its state before the write began and no commit happens; if all
steps succeed, the committed state is the six steps applied in write
order, and the trace shows exactly one commit, placed right after the
fact-row write (and before the close). -/
theorem C4_transaction_atomicity (store : DB) (df : DF) (fl : Failures) :
    (((∃ s, fl.stepFail s = true) ∨ fl.commitFail = true ∨ fl.connectFail = true
        ∨ astypeOk df = false) →
      (save_to_database store df fl).db = store
      ∧ DBEvent.commit ∉ (save_to_database store df fl).trace)
  ∧ ((∀ s, fl.stepFail s = false) → fl.commitFail = false → fl.connectFail = false →
      astypeOk df = true →
      (save_to_database store df fl).db = applyAllSteps store (astypeApply df)
      ∧ (save_to_database store df fl).trace
          = [DBEvent.openConn, DBEvent.write Step.customers, DBEvent.write Step.products,
             DBEvent.write Step.txTypes, DBEvent.write Step.spendCats,
             DBEvent.write Step.amountCats, DBEvent.write Step.facts,
             DBEvent.commit, DBEvent.closeConn]) := by
  constructor
  · intro hfail
    by_cases h4 : astypeOk df = false
    · unfold save_to_database
      rw [if_pos h4]
      exact ⟨rfl, by simp⟩
    · by_cases h3 : fl.connectFail = true
      · unfold save_to_database
        rw [if_neg h4, if_pos h3]
        exact ⟨rfl, by simp⟩
      · have hcond : ((runSteps store (astypeApply df) fl.stepFail stepOrder).2.2
            && !fl.commitFail) = false := by
          rcases hfail with ⟨s, hs⟩ | hc | hc | hc
          · rw [runSteps_ok_false (astypeApply df) fl.stepFail stepOrder store s
              (step_mem_stepOrder s) hs]
            rfl
          · rw [hc]
            simp
          · exact absurd hc h3
          · exact absurd hc h4
        unfold save_to_database
        rw [if_neg h4, if_neg h3]
        simp only [hcond, Bool.false_eq_true, if_false]
        exact ⟨by simp, commit_not_in_failure_trace _ _ _ _⟩
  · intro h1 h2 h3 h4
    rw [save_all_ok store df fl h1 h2 h3 h4]
    exact ⟨rfl, rfl⟩

/-- **C4, witness** (a failure of the fact step leaves an empty store
untouched; a clean run on a one-row batch produces the six writes and one
commit after the fact write). -/
theorem C4_transaction_atomicity_witness :
    (save_to_database emptyDB ⟨["x"], [[Value.num 1]]⟩
        ⟨false, fun s => decide (s = Step.facts), false⟩).db = emptyDB
  ∧ (save_to_database emptyDB
        ⟨["customer_id", "product_id", "product_category", "transaction_date",
          "transaction_amount", "transaction_type", "spend_category", "amount_category"],
         [[Value.str "c1", Value.str "p1", Value.str "food", Value.str "2023-01-01",
           Value.num 30, Value.str "purchase", Value.str "grocery", Value.str "low"]]⟩
        noFailures).trace
      = [DBEvent.openConn, DBEvent.write Step.customers, DBEvent.write Step.products,
         DBEvent.write Step.txTypes, DBEvent.write Step.spendCats, DBEvent.write Step.amountCats,
         DBEvent.write Step.facts, DBEvent.commit, DBEvent.closeConn] :=
  ⟨((C4_transaction_atomicity emptyDB ⟨["x"], [[Value.num 1]]⟩
      ⟨false, fun s => decide (s = Step.facts), false⟩).1
      (Or.inl ⟨Step.facts, by decide⟩)).1,
   ((C4_transaction_atomicity emptyDB
      ⟨["customer_id", "product_id", "product_category", "transaction_date",
        "transaction_amount", "transaction_type", "spend_category", "amount_category"],
       [[Value.str "c1", Value.str "p1", Value.str "food", Value.str "2023-01-01",
         Value.num 30, Value.str "purchase", Value.str "grocery", Value.str "low"]]⟩
      noFailures).2 (fun _ => rfl) rfl rfl (by decide)).2⟩

theorem getLast?_cons_append_two {α : Type} (a x y : α) (l : List α) :
    (a :: (l ++ [x, y])).getLast? = some y := by
  rw [show a :: (l ++ [x, y]) = (a :: (l ++ [x])) ++ [y] by simp]
  exact List.getLast?_concat _

/-- **C8.**  On every exit path of the writer, once the store connection
has been opened it is closed before the call returns: whenever the trace
contains the open event, its last event is the close. -/
theorem C8_connection_closed (store : DB) (df : DF) (fl : Failures)
    (h : DBEvent.openConn ∈ (save_to_database store df fl).trace) :
    (save_to_database store df fl).trace.getLast? = some DBEvent.closeConn := by
  unfold save_to_database at h ⊢
  by_cases h4 : astypeOk df = false
  · rw [if_pos h4] at h
    simp at h
  · rw [if_neg h4] at h ⊢
    by_cases h3 : fl.connectFail = true
    · rw [if_pos h3] at h
      simp at h
    · rw [if_neg h3] at h ⊢
      by_cases hcond : ((runSteps store (astypeApply df) fl.stepFail stepOrder).2.2
          && !fl.commitFail) = true
      · simp only [hcond, if_true]
        exact getLast?_cons_append_two _ _ _ _
      · simp only [hcond, Bool.false_eq_true, if_false]
        exact getLast?_cons_append_two _ _ _ _

/-- **C8, witness** (a run whose fact step fails still opens, rolls back
and closes; the close is the last event). -/
theorem C8_connection_closed_witness :
    (save_to_database emptyDB
        ⟨["customer_id", "product_id", "product_category", "transaction_date",
          "transaction_amount", "transaction_type", "spend_category", "amount_category"],
         [[Value.str "c1", Value.str "p1", Value.str "food", Value.str "2023-01-01",
           Value.num 30, Value.str "purchase", Value.str "grocery", Value.str "low"]]⟩
        ⟨false, fun s => decide (s = Step.facts), false⟩).trace.getLast?
      = some DBEvent.closeConn :=
  C8_connection_closed emptyDB
    ⟨["customer_id", "product_id", "product_category", "transaction_date",
      "transaction_amount", "transaction_type", "spend_category", "amount_category"],
     [[Value.str "c1", Value.str "p1", Value.str "food", Value.str "2023-01-01",
       Value.num 30, Value.str "purchase", Value.str "grocery", Value.str "low"]]⟩
    ⟨false, fun s => decide (s = Step.facts), false⟩ (by decide)

theorem insertIfAbsent_nodup {l : List String} {k : String} (h : l.Nodup) :
    (insertIfAbsent l k).Nodup := by
  unfold insertIfAbsent
  split
  · exact h
  · rename_i hk
    simp [List.nodup_append, h, hk]

theorem foldl_insertIfAbsent_nodup (ks : List String) :
    ∀ l : List String, l.Nodup → (ks.foldl insertIfAbsent l).Nodup := by
  induction ks with
  | nil => intro l h; exact h
  | cons k rest ih =>
    intro l h
    exact ih _ (insertIfAbsent_nodup h)

theorem insertProduct_keys_nodup {l : List (String × String)} {p : String × String}
    (h : (l.map Prod.fst).Nodup) : ((insertProduct l p).map Prod.fst).Nodup := by
  unfold insertProduct
  split
  · exact h
  · rename_i hk
    simp only [List.map_append, List.map_cons, List.map_nil]
    simp [List.nodup_append, h, hk]

theorem foldl_insertProduct_nodup (ps : List (String × String)) :
    ∀ l, (l.map Prod.fst).Nodup → ((ps.foldl insertProduct l).map Prod.fst).Nodup := by
  induction ps with
  | nil => intro l h; exact h
  | cons p rest ih =>
    intro l h
    exact ih _ (insertProduct_keys_nodup h)

theorem insertAmountCat_keys_nodup {l : List (String × ℚ × ℚ)} {row : String × ℚ × ℚ}
    (h : (l.map (fun x => x.1)).Nodup) : ((insertAmountCat l row).map (fun x => x.1)).Nodup := by
  unfold insertAmountCat
  split
  · exact h
  · rename_i hk
    simp only [List.map_append, List.map_cons, List.map_nil]
    simp [List.nodup_append, h, hk]

theorem foldl_insertAmountCat_nodup (rs : List (String × ℚ × ℚ)) :
    ∀ l, (l.map (fun x => x.1)).Nodup → ((rs.foldl insertAmountCat l).map (fun x => x.1)).Nodup := by
  induction rs with
  | nil => intro l h; exact h
  | cons row rest ih =>
    intro l h
    exact ih _ (insertAmountCat_keys_nodup h)

theorem applyAllSteps_customers (db : DB) (d : DF) :
    (applyAllSteps db d).customers
      = ((dropDuplicatesList (colValues d "customer_id")).map pyStr).foldl insertIfAbsent
          db.customers :=
  rfl

theorem applyAllSteps_products (db : DB) (d : DF) :
    (applyAllSteps db d).products
      = ((dropDuplicatesList
            (List.zip (colValues d "product_id") (colValues d "product_category"))).map
          (fun p => (pyStr p.1, pyStr p.2))).foldl insertProduct db.products :=
  rfl

theorem applyAllSteps_txTypes (db : DB) (d : DF) :
    (applyAllSteps db d).transaction_types
      = ((dropDuplicatesList (colValues d "transaction_type")).map pyStr).foldl insertIfAbsent
          db.transaction_types :=
  rfl

theorem applyAllSteps_spendCats (db : DB) (d : DF) :
    (applyAllSteps db d).spend_categories
      = ((dropDuplicatesList (colValues d "spend_category")).map pyStr).foldl insertIfAbsent
          db.spend_categories :=
  rfl

theorem applyAllSteps_amountCats (db : DB) (d : DF) :
    (applyAllSteps db d).amount_categories
      = amountCategoryRows.foldl insertAmountCat db.amount_categories :=
  rfl

theorem applyAllSteps_transactions_length (db : DB) (d : DF) :
    (applyAllSteps db d).transactions.length = db.transactions.length + d.rows.length := by
  show (db.transactions ++ d.rows.map _).length = _
  simp

/-- **C5.**  Running the writer twice from an empty store with the same
batch (all database operations succeeding) leaves every lookup table free
of duplicate natural keys — the dimension upserts are idempotent — while
the fact table receives the batch's rows a second time: its row count
after the second run is exactly twice its count after the first. -/
theorem C5_writer_idempotence (df : DF) (h : astypeOk df = true) :
    ((save_to_database (save_to_database emptyDB df noFailures).db df noFailures).db.customers).Nodup
  ∧ (((save_to_database (save_to_database emptyDB df noFailures).db df
        noFailures).db.products.map Prod.fst)).Nodup
  ∧ ((save_to_database (save_to_database emptyDB df noFailures).db df
        noFailures).db.transaction_types).Nodup
  ∧ ((save_to_database (save_to_database emptyDB df noFailures).db df
        noFailures).db.spend_categories).Nodup
  ∧ (((save_to_database (save_to_database emptyDB df noFailures).db df
        noFailures).db.amount_categories.map (fun x => x.1))).Nodup
  ∧ (save_to_database (save_to_database emptyDB df noFailures).db df
        noFailures).db.transactions.length
      = 2 * (save_to_database emptyDB df noFailures).db.transactions.length := by
  have hall := save_all_ok emptyDB df noFailures (fun _ => rfl) rfl rfl h
  rw [hall]
  have hall2 := save_all_ok (applyAllSteps emptyDB (astypeApply df)) df noFailures
    (fun _ => rfl) rfl rfl h
  rw [show (⟨applyAllSteps emptyDB (astypeApply df), _⟩ : SaveResult).db
      = applyAllSteps emptyDB (astypeApply df) from rfl]
  rw [hall2]
  refine ⟨?_, ?_, ?_, ?_, ?_, ?_⟩
  · rw [show (⟨applyAllSteps (applyAllSteps emptyDB (astypeApply df)) (astypeApply df), _⟩ :
        SaveResult).db = applyAllSteps (applyAllSteps emptyDB (astypeApply df)) (astypeApply df)
      from rfl]
    rw [applyAllSteps_customers, applyAllSteps_customers]
    exact foldl_insertIfAbsent_nodup _ _ (foldl_insertIfAbsent_nodup _ _ List.nodup_nil)
  · rw [show (⟨applyAllSteps (applyAllSteps emptyDB (astypeApply df)) (astypeApply df), _⟩ :
        SaveResult).db = applyAllSteps (applyAllSteps emptyDB (astypeApply df)) (astypeApply df)
      from rfl]
    rw [applyAllSteps_products, applyAllSteps_products]
    exact foldl_insertProduct_nodup _ _ (foldl_insertProduct_nodup _ _ List.nodup_nil)
  · rw [show (⟨applyAllSteps (applyAllSteps emptyDB (astypeApply df)) (astypeApply df), _⟩ :
        SaveResult).db = applyAllSteps (applyAllSteps emptyDB (astypeApply df)) (astypeApply df)
      from rfl]
    rw [applyAllSteps_txTypes, applyAllSteps_txTypes]
    exact foldl_insertIfAbsent_nodup _ _ (foldl_insertIfAbsent_nodup _ _ List.nodup_nil)
  · rw [show (⟨applyAllSteps (applyAllSteps emptyDB (astypeApply df)) (astypeApply df), _⟩ :
        SaveResult).db = applyAllSteps (applyAllSteps emptyDB (astypeApply df)) (astypeApply df)
      from rfl]
    rw [applyAllSteps_spendCats, applyAllSteps_spendCats]
    exact foldl_insertIfAbsent_nodup _ _ (foldl_insertIfAbsent_nodup _ _ List.nodup_nil)
  · rw [show (⟨applyAllSteps (applyAllSteps emptyDB (astypeApply df)) (astypeApply df), _⟩ :
        SaveResult).db = applyAllSteps (applyAllSteps emptyDB (astypeApply df)) (astypeApply df)
      from rfl]
    rw [applyAllSteps_amountCats, applyAllSteps_amountCats]
    exact foldl_insertAmountCat_nodup _ _ (foldl_insertAmountCat_nodup _ _ List.nodup_nil)
  · rw [show (⟨applyAllSteps (applyAllSteps emptyDB (astypeApply df)) (astypeApply df), _⟩ :
        SaveResult).db = applyAllSteps (applyAllSteps emptyDB (astypeApply df)) (astypeApply df)
      from rfl]
    rw [applyAllSteps_transactions_length, applyAllSteps_transactions_length]
    show emptyDB.transactions.length + (astypeApply df).rows.length + (astypeApply df).rows.length
      = 2 * (emptyDB.transactions.length + (astypeApply df).rows.length)
    show 0 + (astypeApply df).rows.length + (astypeApply df).rows.length
      = 2 * (0 + (astypeApply df).rows.length)
    omega

/-- **C5, witness.** -/
theorem C5_writer_idempotence_witness :
    ((save_to_database (save_to_database emptyDB
        ⟨["customer_id", "product_id", "product_category", "transaction_date",
          "transaction_amount", "transaction_type", "spend_category", "amount_category"],
         [[Value.str "c1", Value.str "p1", Value.str "food", Value.str "2023-01-01",
           Value.num 30, Value.str "purchase", Value.str "grocery", Value.str "low"]]⟩
        noFailures).db
        ⟨["customer_id", "product_id", "product_category", "transaction_date",
          "transaction_amount", "transaction_type", "spend_category", "amount_category"],
         [[Value.str "c1", Value.str "p1", Value.str "food", Value.str "2023-01-01",
           Value.num 30, Value.str "purchase", Value.str "grocery", Value.str "low"]]⟩
        noFailures).db.customers).Nodup
  ∧ (save_to_database (save_to_database emptyDB
        ⟨["customer_id", "product_id", "product_category", "transaction_date",
          "transaction_amount", "transaction_type", "spend_category", "amount_category"],
         [[Value.str "c1", Value.str "p1", Value.str "food", Value.str "2023-01-01",
           Value.num 30, Value.str "purchase", Value.str "grocery", Value.str "low"]]⟩
        noFailures).db
        ⟨["customer_id", "product_id", "product_category", "transaction_date",
          "transaction_amount", "transaction_type", "spend_category", "amount_category"],
         [[Value.str "c1", Value.str "p1", Value.str "food", Value.str "2023-01-01",
           Value.num 30, Value.str "purchase", Value.str "grocery", Value.str "low"]]⟩
        noFailures).db.transactions.length
      = 2 * (save_to_database emptyDB
        ⟨["customer_id", "product_id", "product_category", "transaction_date",
          "transaction_amount", "transaction_type", "spend_category", "amount_category"],
         [[Value.str "c1", Value.str "p1", Value.str "food", Value.str "2023-01-01",
           Value.num 30, Value.str "purchase", Value.str "grocery", Value.str "low"]]⟩
        noFailures).db.transactions.length :=
  ⟨(C5_writer_idempotence
      ⟨["customer_id", "product_id", "product_category", "transaction_date",
        "transaction_amount", "transaction_type", "spend_category", "amount_category"],
       [[Value.str "c1", Value.str "p1", Value.str "food", Value.str "2023-01-01",
         Value.num 30, Value.str "purchase", Value.str "grocery", Value.str "low"]]⟩
      (by decide)).1,
   (C5_writer_idempotence
      ⟨["customer_id", "product_id", "product_category", "transaction_date",
        "transaction_amount", "transaction_type", "spend_category", "amount_category"],
       [[Value.str "c1", Value.str "p1", Value.str "food", Value.str "2023-01-01",
         Value.num 30, Value.str "purchase", Value.str "grocery", Value.str "low"]]⟩
      (by decide)).2.2.2.2.2⟩

/-! ### Claim C10 -/

theorem heapGet_set_ne {g : Heap} {c r : Nat} {df : DF} (hne : r ≠ c) :
    heapGet (heapSet g c df) r = heapGet g r :=
  getD_set_ne hne

theorem heapGet_append {g : Heap} {l : List DF} {r : Nat} (hr : r < g.length) :
    heapGet (g ++ l) r = heapGet g r :=
  getD_append_left hr

/-- **C10.**  Neither `clean_data` nor `enrich_data` mutates its input
batch: in the heap model that makes the Python object mutations explicit
(both functions copy, mutate only the copy in place, and rebind to fresh
objects), the object the caller passed in is bitwise unchanged after
either call. -/
theorem C10_no_input_mutation (h : Heap) (r : Nat) (hr : r < h.length) :
    heapGet (clean_data_heap h r).1 r = heapGet h r
  ∧ heapGet (enrich_data_heap h r).1 r = heapGet h r := by
  have hne : r ≠ h.length := Nat.ne_of_lt hr
  constructor
  · simp only [clean_data_heap]
    by_cases hemp : (heapGet h r).rows.isEmpty = true
    · simp only [hemp, if_true]
    · simp only [hemp, Bool.false_eq_true, if_false]
      split
      · refine (heapGet_append ?_).trans
          ((heapGet_set_ne hne).trans ((heapGet_set_ne hne).trans ((heapGet_set_ne hne).trans
            ((heapGet_set_ne hne).trans (heapGet_append hr)))))
        simp only [heapSet, List.length_set, List.length_append, List.length_cons]
        omega
      · exact (heapGet_set_ne hne).trans ((heapGet_set_ne hne).trans ((heapGet_set_ne hne).trans
          (heapGet_append hr)))
  · simp only [enrich_data_heap]
    by_cases hemp : (heapGet h r).rows.isEmpty = true
    · simp only [hemp, if_true]
    · simp only [hemp, Bool.false_eq_true, if_false]
      split
      · split
        · refine (heapGet_append ?_).trans
            ((heapGet_set_ne hne).trans ((heapGet_set_ne hne).trans (heapGet_append hr)))
          simp only [heapSet, List.length_set, List.length_append, List.length_cons]
          omega
        · exact heapGet_append hr
      · exact heapGet_append hr

/-- **C10, witness.** -/
theorem C10_no_input_mutation_witness :
    heapGet (clean_data_heap [⟨["transaction_amount"], [[Value.str "30"], [Value.num 30]]⟩] 0).1 0
      = heapGet [⟨["transaction_amount"], [[Value.str "30"], [Value.num 30]]⟩] 0
  ∧ heapGet (enrich_data_heap [⟨["transaction_amount"], [[Value.str "30"], [Value.num 30]]⟩] 0).1 0
      = heapGet [⟨["transaction_amount"], [[Value.str "30"], [Value.num 30]]⟩] 0 :=
  C10_no_input_mutation [⟨["transaction_amount"], [[Value.str "30"], [Value.num 30]]⟩] 0
    (by decide)
